import Mathlib

/-!
Verification of the address-aware UDP echo service (src/udp_echo.c).

The shallow embedding below translates the source file's observable
behaviour into Lean:

* ancillary (cmsg) records and the decoder `pktinfo_get` (lines 51-77);
* the diagnostic branch of `print_info` (lines 87-108);
* the receive/echo service loop of `main` (lines 167-194) as a function
  over a finite trace of receive outcomes;
* the startup path of `main` (bind, the two `setsockopt` calls whose
  return values the source discards, lines 158-165).

Machine integers: the `count` variable of `main` is a 32-bit C `int`;
it is modelled by its two's-complement bit pattern, a `Nat` below
`INT_WRAP = 2^32`, and the `--count` decrement wraps modulo `INT_WRAP`.
All structs whose bytes are copied with `memcpy` (struct in_pktinfo,
struct in6_pktinfo) are modelled as raw byte lists.
-/

/-- Linux constant: address family AF_INET. -/
def AF_INET : Int := 2

/-- Linux constant: address family AF_INET6. -/
def AF_INET6 : Int := 10

/-- Linux constant: cmsg level IPPROTO_IP (= SOL_IP). -/
def IPPROTO_IP : Int := 0

/-- Linux constant: cmsg type IP_PKTINFO. -/
def IP_PKTINFO : Int := 8

/-- Linux constant: cmsg level IPPROTO_IPV6. -/
def IPPROTO_IPV6 : Int := 41

/-- Linux constant: cmsg type IPV6_PKTINFO. -/
def IPV6_PKTINFO : Int := 50

/-- sizeof(struct in_pktinfo) = 12: int ipi_ifindex; struct in_addr
ipi_spec_dst; struct in_addr ipi_addr. -/
def sizeof_in_pktinfo : Nat := 12

/-- sizeof(struct in6_pktinfo) = 20: struct in6_addr ipi6_addr (16 bytes);
unsigned int ipi6_ifindex. -/
def sizeof_in6_pktinfo : Nat := 20

/-- Byte offset 4..7 of struct in_pktinfo: the ipi_spec_dst field, the
local destination address of the datagram. -/
def in_pktinfo_spec_dst (bytes : List Nat) : List Nat :=
  (bytes.drop 4).take 4

/-- char frame[8192]: the packet payload buffer of main. -/
def FRAME_SIZE : Nat := 8192

/-- char cbuf[512]: the ancillary-data buffer of main. -/
def CBUF_SIZE : Nat := 512

/-- Default UDP port (#define PORT 4040). -/
def PORT : Nat := 4040

/-- Initial value of the reply counter in main, line 130:
int c, count = 1000000. -/
def count_default : Nat := 1000000

/-- Default address family in main, line 132:
int addr_family = AF_INET6. -/
def addr_family_default : Int := AF_INET6

/-- Wrap modulus of a 32-bit C int bit pattern: 2^32. -/
def INT_WRAP : Nat := 4294967296

/-- One ancillary (control) record, struct cmsghdr plus its data bytes. -/
structure Cmsghdr where
  cmsg_len : Nat
  cmsg_level : Int
  cmsg_type : Int
  cmsg_data : List Nat
deriving DecidableEq

/-- A generic socket address (struct sockaddr_storage contents), kept
abstract as family plus raw bytes; the echo loop only ever copies it. -/
structure Sockaddr where
  sa_family : Int
  sa_data : List Nat
deriving DecidableEq

/-- The parts of struct msghdr that pktinfo_get and print_info read:
the remote address (msg_name) and the ancillary block
(msg_controllen, msg_control, the latter already split into records). -/
structure Msghdr where
  msg_name : Sockaddr
  msg_controllen : Nat
  msg_control : List Cmsghdr
deriving DecidableEq

/-- Test of the first branch in pktinfo_get's loop:
cmsg_level == IPPROTO_IP && cmsg_type == IP_PKTINFO. -/
def isV4Rec (c : Cmsghdr) : Bool :=
  c.cmsg_level == IPPROTO_IP && c.cmsg_type == IP_PKTINFO

/-- Test of the second branch in pktinfo_get's loop:
cmsg_level == IPPROTO_IPV6 && cmsg_type == IPV6_PKTINFO. -/
def isV6Rec (c : Cmsghdr) : Bool :=
  c.cmsg_level == IPPROTO_IPV6 && c.cmsg_type == IPV6_PKTINFO

/-- A record one of the two recognized branches accepts. -/
def isRecognized (c : Cmsghdr) : Bool :=
  isV4Rec c || isV6Rec c

/-- State threaded through pktinfo_get's scan: the res variable, the two
out-parameter structs (as raw bytes) and the stderr diagnostics emitted
for unknown records, each a (cmsg_len, cmsg_level, cmsg_type) triple. -/
structure PktinfoScan where
  res : Int
  pktinfo : List Nat
  pktinfo6 : List Nat
  diagnostics : List (Nat × Int × Int)
deriving DecidableEq

/-- Body of pktinfo_get's for-loop for one cmsg record (lines 59-73):
an IPv4 match memcpys the record data over *pktinfo and sets
res = AF_INET; an IPv6 match memcpys over *pktinfo6 and sets
res = AF_INET6; anything else prints the unknown-ancillary diagnostic
and leaves the state alone. -/
def pktinfo_step (st : PktinfoScan) (c : Cmsghdr) : PktinfoScan :=
  if isV4Rec c then
    { st with pktinfo := c.cmsg_data.take sizeof_in_pktinfo, res := AF_INET }
  else if isV6Rec c then
    { st with pktinfo6 := c.cmsg_data.take sizeof_in6_pktinfo, res := AF_INET6 }
  else
    { st with diagnostics := st.diagnostics ++ [(c.cmsg_len, c.cmsg_level, c.cmsg_type)] }

/-- The CMSG_FIRSTHDR/CMSG_NXTHDR iteration of pktinfo_get, visiting the
ancillary records in delivery order. -/
def pktinfo_scan (st : PktinfoScan) : List Cmsghdr → PktinfoScan
  | [] => st
  | c :: rest => pktinfo_scan (pktinfo_step st c) rest

/-- pktinfo_get (lines 51-77): res starts at -1; when
msg_controllen > 0 the ancillary records are scanned, otherwise nothing
happens.  The pktinfo/pktinfo6 arguments are the callers' (possibly
uninitialized) out-parameter structs, as raw bytes. -/
def pktinfo_get (my_hdr : Msghdr) (pktinfo pktinfo6 : List Nat) : PktinfoScan :=
  if 0 < my_hdr.msg_controllen then
    pktinfo_scan { res := -1, pktinfo := pktinfo, pktinfo6 := pktinfo6, diagnostics := [] }
      my_hdr.msg_control
  else
    { res := -1, pktinfo := pktinfo, pktinfo6 := pktinfo6, diagnostics := [] }

/-- Whether print_info (lines 87-108) takes its else branch and prints
"No destination IP data found (ancillary data)": exactly when
pktinfo_get returned neither AF_INET nor AF_INET6. -/
def print_info_no_data (my_hdr : Msghdr) (pktinfo pktinfo6 : List Nat) : Bool :=
  let addr_family := (pktinfo_get my_hdr pktinfo pktinfo6).res
  !(addr_family == AF_INET) && !(addr_family == AF_INET6)

/-- Outcome of one recvmsg call, as seen by the loop in main: either a
failure (res == -1, which breaks the loop) or a datagram together with
the ancillary records and the remote address the kernel fills in. -/
inductive RecvOutcome where
  | err : RecvOutcome
  | ok (payload : List Nat) (controllen : Nat) (control : List Cmsghdr)
      (name : Sockaddr) : RecvOutcome
deriving DecidableEq

/-- One datagram handed to sendmsg by the loop: destination msg_name,
the first res bytes of the frame buffer, and the reused ancillary
block (which directs the kernel's source-address selection). -/
structure SentDatagram where
  msg_name : Sockaddr
  payload : List Nat
  controllen : Nat
  control : List Cmsghdr
deriving DecidableEq

/-- Why the while(1) loop of main is no longer running: recvmsg
returned -1; --count reached 0; or (an artifact of the finite event
trace) the trace ended while the loop was still blocked in recvmsg. -/
inductive LoopExit where
  | recvError : LoopExit
  | countDone : LoopExit
  | running : LoopExit
deriving DecidableEq

/-- The --count decrement on a 32-bit int bit pattern: subtracting one
wraps modulo 2^32 (two's complement). -/
def ctrDec (count : Nat) : Nat :=
  (count + (INT_WRAP - 1)) % INT_WRAP

/-- The reply main builds for one received datagram: vec[0].iov_len is
set to res = min(datagram length, sizeof(frame)) — recvmsg truncates to
the 8192-byte frame buffer — and sendmsg reuses msg_name and the
received ancillary block unchanged. -/
def sent_frame (payload : List Nat) (controllen : Nat) (control : List Cmsghdr)
    (name : Sockaddr) : SentDatagram :=
  { msg_name := name,
    payload := payload.take (min payload.length FRAME_SIZE),
    controllen := controllen,
    control := control }

/-- The while(1) loop of main (lines 167-194) over a finite trace of
receive outcomes.  recvmsg == -1 breaks the loop with nothing sent this
iteration; otherwise the frame is echoed with sendmsg and then
`if (--count == 0) break` runs, so the reply that exhausts the counter
is still sent. -/
def run_loop (count : Nat) : List RecvOutcome → List SentDatagram × LoopExit
  | [] => ([], LoopExit.running)
  | RecvOutcome.err :: _ => ([], LoopExit.recvError)
  | RecvOutcome.ok payload controllen control name :: rest =>
    if ctrDec count = 0 then
      ([sent_frame payload controllen control name], LoopExit.countDone)
    else
      (sent_frame payload controllen control name :: (run_loop (ctrDec count) rest).1,
        (run_loop (ctrDec count) rest).2)

/-- Observable result of a run of main: the exit status (none while the
loop is still waiting for the next datagram), the datagrams handed to
sendmsg, and the startup diagnostics written for the operator. -/
structure MainResult where
  exited : Option Int
  sent : List SentDatagram
  diags : List String
deriving DecidableEq

/-- The startup-plus-loop behaviour of main (lines 158-195).  A failed
bind runs perror("bind") and returns 1 before the loop.  The two
setsockopt calls' results (sockopt4_ok, sockopt6_ok) are discarded by
the source — lines 164-165 never test them — so they influence nothing.
After the loop breaks, for any reason, main falls through to return 0. -/
def main_run (bind_ok sockopt4_ok sockopt6_ok : Bool) (count : Nat)
    (events : List RecvOutcome) : MainResult :=
  if bind_ok then
    { exited := if (run_loop count events).2 = LoopExit.running then none else some 0,
      sent := (run_loop count events).1,
      diags := [] }
  else
    { exited := some 1, sent := [], diags := ["bind"] }

/-- A fixed remote address used for concrete test datagrams. -/
def peer0 : Sockaddr := ⟨AF_INET6, [1, 2, 3, 4]⟩

/-- A concrete successful receive of an empty datagram from peer0 with
no ancillary data, used as a test event. -/
def okev : RecvOutcome := RecvOutcome.ok [] 0 [] peer0


/-! ## Decoder lemmas: the scan is a fold that keeps the last match -/

lemma foldl_const_last {α β : Type} (f : α → β) :
    ∀ (l : List α) (init : β),
      l.foldl (fun _ c => f c) init = ((l.getLast?).map f).getD init := by
  intro l
  induction l with
  | nil => intro init; rfl
  | cons c rest ih =>
    intro init
    rw [List.foldl_cons, ih (f c)]
    cases rest with
    | nil => rfl
    | cons d rest2 =>
      rw [List.getLast?_cons_cons]
      rcases h : (d :: rest2).getLast? with _ | x
      · exact absurd (List.getLast?_eq_none_iff.mp h) (List.cons_ne_nil d rest2)
      · rfl

lemma pktinfo_scan_pktinfo :
    ∀ (l : List Cmsghdr) (st : PktinfoScan),
      (pktinfo_scan st l).pktinfo =
        (l.filter isV4Rec).foldl (fun _ c => c.cmsg_data.take sizeof_in_pktinfo) st.pktinfo := by
  intro l
  induction l with
  | nil => intro st; rfl
  | cons c rest ih =>
    intro st
    show (pktinfo_scan (pktinfo_step st c) rest).pktinfo = _
    rw [ih]
    by_cases h4 : isV4Rec c
    · simp [pktinfo_step, h4, List.filter_cons]
    · by_cases h6 : isV6Rec c <;> simp [pktinfo_step, h4, h6, List.filter_cons]

lemma pktinfo_scan_pktinfo6 :
    ∀ (l : List Cmsghdr) (st : PktinfoScan),
      (pktinfo_scan st l).pktinfo6 =
        (l.filter isV6Rec).foldl (fun _ c => c.cmsg_data.take sizeof_in6_pktinfo) st.pktinfo6 := by
  intro l
  induction l with
  | nil => intro st; rfl
  | cons c rest ih =>
    intro st
    show (pktinfo_scan (pktinfo_step st c) rest).pktinfo6 = _
    rw [ih]
    by_cases h4 : isV4Rec c
    · have h6 : isV6Rec c = false := by
        simp only [isV4Rec, Bool.and_eq_true, beq_iff_eq] at h4
        simp [isV6Rec, h4.1, IPPROTO_IP, IPPROTO_IPV6]
      simp [pktinfo_step, h4, h6, List.filter_cons]
    · by_cases h6 : isV6Rec c <;> simp [pktinfo_step, h4, h6, List.filter_cons]

lemma pktinfo_scan_res :
    ∀ (l : List Cmsghdr) (st : PktinfoScan),
      (pktinfo_scan st l).res =
        (l.filter isRecognized).foldl
          (fun _ c => if isV4Rec c then AF_INET else AF_INET6) st.res := by
  intro l
  induction l with
  | nil => intro st; rfl
  | cons c rest ih =>
    intro st
    show (pktinfo_scan (pktinfo_step st c) rest).res = _
    rw [ih]
    by_cases h4 : isV4Rec c
    · simp [pktinfo_step, h4, List.filter_cons, isRecognized]
    · by_cases h6 : isV6Rec c <;>
        simp [pktinfo_step, h4, h6, List.filter_cons, isRecognized]

lemma pktinfo_scan_diags :
    ∀ (l : List Cmsghdr) (st : PktinfoScan),
      (pktinfo_scan st l).diagnostics =
        st.diagnostics ++
          (l.filter (fun c => !(isRecognized c))).map
            (fun c => (c.cmsg_len, c.cmsg_level, c.cmsg_type)) := by
  intro l
  induction l with
  | nil => intro st; simp [pktinfo_scan]
  | cons c rest ih =>
    intro st
    show (pktinfo_scan (pktinfo_step st c) rest).diagnostics = _
    rw [ih]
    by_cases h4 : isV4Rec c
    · simp [pktinfo_step, h4, List.filter_cons, isRecognized]
    · by_cases h6 : isV6Rec c <;>
        simp [pktinfo_step, h4, h6, List.filter_cons, isRecognized]

/-! ## Service-loop counting lemmas -/

/-- Number of --count decrements needed to bring the 32-bit bit pattern
c to exactly 0: c itself when c is nonzero, a full wrap of 2^32 steps
when c starts at 0. -/
def targetCnt (c : Nat) : Nat :=
  if c = 0 then INT_WRAP else c

lemma targetCnt_pos (c : Nat) : 0 < targetCnt c := by
  unfold targetCnt INT_WRAP
  split <;> omega

lemma ctrDec_eq_zero_iff (c : Nat) (hc : c < INT_WRAP) : ctrDec c = 0 ↔ c = 1 := by
  unfold ctrDec INT_WRAP at *
  omega

lemma ctrDec_lt (c : Nat) : ctrDec c < INT_WRAP := by
  unfold ctrDec INT_WRAP
  omega

lemma targetCnt_step (c : Nat) (hc : c < INT_WRAP) (h1 : c ≠ 1) :
    targetCnt c = targetCnt (ctrDec c) + 1 := by
  unfold targetCnt ctrDec INT_WRAP at *
  split <;> split <;> omega

/-- If the first targetCnt c receive outcomes all succeed and the trace
is long enough, the loop echoes exactly targetCnt c datagrams and then
breaks through count exhaustion, whatever follows in the trace. -/
lemma run_loop_exhaust :
    ∀ (events : List RecvOutcome) (c : Nat), c < INT_WRAP →
      (∀ e ∈ events.take (targetCnt c), e ≠ RecvOutcome.err) →
      targetCnt c ≤ events.length →
      (run_loop c events).1.length = targetCnt c ∧
        (run_loop c events).2 = LoopExit.countDone := by
  intro events
  induction events with
  | nil =>
    intro c _ _ hlen
    have := targetCnt_pos c
    simp only [List.length_nil, Nat.le_zero] at hlen
    omega
  | cons e rest ih =>
    intro c hc hok hlen
    have hmem : e ∈ (e :: rest).take (targetCnt c) := by
      have := targetCnt_pos c
      rcases Nat.exists_eq_add_of_lt this with ⟨k, hk⟩
      rw [show targetCnt c = k + 1 by omega, List.take_succ_cons]
      exact List.mem_cons_self e _
    have hne : e ≠ RecvOutcome.err := hok e hmem
    rcases e with _ | ⟨payload, controllen, control, name⟩
    · exact absurd rfl hne
    by_cases h0 : ctrDec c = 0
    · have hc1 : c = 1 := (ctrDec_eq_zero_iff c hc).mp h0
      constructor
      · show (run_loop c (RecvOutcome.ok payload controllen control name :: rest)).1.length = _
        rw [run_loop, if_pos h0]
        simp [hc1, targetCnt]
      · show (run_loop c (RecvOutcome.ok payload controllen control name :: rest)).2 = _
        rw [run_loop, if_pos h0]
    · have hc1 : c ≠ 1 := fun h => h0 (by simp [h, ctrDec, INT_WRAP])
      have hstep := targetCnt_step c hc hc1
      have hok2 : ∀ x ∈ rest.take (targetCnt (ctrDec c)), x ≠ RecvOutcome.err := by
        intro x hx
        apply hok
        rw [hstep, List.take_succ_cons]
        exact List.mem_cons_of_mem _ hx
      have hlen2 : targetCnt (ctrDec c) ≤ rest.length := by
        simp only [List.length_cons] at hlen
        omega
      have := ih (ctrDec c) (ctrDec_lt c) hok2 hlen2
      constructor
      · show (run_loop c (RecvOutcome.ok payload controllen control name :: rest)).1.length = _
        rw [run_loop, if_neg h0]
        simp only [List.length_cons, this.1]
        omega
      · show (run_loop c (RecvOutcome.ok payload controllen control name :: rest)).2 = _
        rw [run_loop, if_neg h0]
        exact this.2

/-- If every receive outcome in the trace succeeds and the trace is
shorter than the number of decrements needed to exhaust the counter,
the loop echoes every datagram and is still running at the end of the
trace. -/
lemma run_loop_under :
    ∀ (events : List RecvOutcome) (c : Nat), c < INT_WRAP →
      (∀ e ∈ events, e ≠ RecvOutcome.err) →
      events.length < targetCnt c →
      (run_loop c events).1.length = events.length ∧
        (run_loop c events).2 = LoopExit.running := by
  intro events
  induction events with
  | nil => intro c _ _ _; exact ⟨rfl, rfl⟩
  | cons e rest ih =>
    intro c hc hok hlen
    have hne : e ≠ RecvOutcome.err := hok e (List.mem_cons_self e rest)
    rcases e with _ | ⟨payload, controllen, control, name⟩
    · exact absurd rfl hne
    by_cases h0 : ctrDec c = 0
    · have hc1 : c = 1 := (ctrDec_eq_zero_iff c hc).mp h0
      rw [hc1] at hlen
      simp [targetCnt] at hlen
    · have hc1 : c ≠ 1 := fun h => h0 (by simp [h, ctrDec, INT_WRAP])
      have hstep := targetCnt_step c hc hc1
      have hok2 : ∀ x ∈ rest, x ≠ RecvOutcome.err := fun x hx =>
        hok x (List.mem_cons_of_mem _ hx)
      have hlen2 : rest.length < targetCnt (ctrDec c) := by
        simp only [List.length_cons] at hlen
        omega
      have := ih (ctrDec c) (ctrDec_lt c) hok2 hlen2
      constructor
      · show (run_loop c (RecvOutcome.ok payload controllen control name :: rest)).1.length = _
        rw [run_loop, if_neg h0]
        simp only [List.length_cons, this.1]
      · show (run_loop c (RecvOutcome.ok payload controllen control name :: rest)).2 = _
        rw [run_loop, if_neg h0]
        exact this.2

/-! ## Claim theorems -/

/-- Claim C1: for every payload p of length between 0 and the receive
buffer capacity (8192), the reply datagram sent back to the peer has a
payload byte-identical to p whose length is exactly the number of bytes
received, not the full buffer capacity. -/
theorem echo_reply_exact (p : List Nat) (cl : Nat) (ctrl : List Cmsghdr)
    (peer : Sockaddr) (rest : List RecvOutcome) (count : Nat)
    (h : p.length ≤ FRAME_SIZE) :
    ∃ s : SentDatagram,
      (run_loop count (RecvOutcome.ok p cl ctrl peer :: rest)).1.head? = some s ∧
      s.payload = p ∧ s.payload.length = p.length ∧ s.msg_name = peer := by
  have hs : sent_frame p cl ctrl peer = ⟨peer, p, cl, ctrl⟩ := by
    unfold sent_frame
    rw [Nat.min_eq_left h, List.take_length]
  refine ⟨⟨peer, p, cl, ctrl⟩, ?_, rfl, rfl, rfl⟩
  rw [run_loop]
  split <;> simp [hs]

/-- Witness for C1 at the concrete payload [1, 2, 3]. -/
theorem echo_reply_exact_wit :
    ∃ s : SentDatagram,
      (run_loop 5 [RecvOutcome.ok [1, 2, 3] 0 [] peer0]).1.head? = some s ∧
      s.payload = [1, 2, 3] ∧ s.payload.length = [1, 2, 3].length ∧
      s.msg_name = peer0 :=
  echo_reply_exact [1, 2, 3] 0 [] peer0 [] 5 (by decide)

/-- Claim C4: a successfully received zero-length datagram is not a
receive error: a zero-length reply goes back to the peer, and (when
this reply does not exhaust the counter) the loop carries on with the
rest of the trace exactly as if nothing special had happened. -/
theorem zero_length_echoed (count cl : Nat) (ctrl : List Cmsghdr)
    (peer : Sockaddr) (rest : List RecvOutcome) :
    (run_loop count (RecvOutcome.ok [] cl ctrl peer :: rest)).1.head? =
      some ⟨peer, [], cl, ctrl⟩ ∧
    (ctrDec count ≠ 0 →
      run_loop count (RecvOutcome.ok [] cl ctrl peer :: rest) =
        (⟨peer, [], cl, ctrl⟩ :: (run_loop (ctrDec count) rest).1,
          (run_loop (ctrDec count) rest).2)) := by
  have hs : sent_frame [] cl ctrl peer = ⟨peer, [], cl, ctrl⟩ := rfl
  constructor
  · rw [run_loop]
    split <;> simp [hs]
  · intro h
    rw [run_loop, if_neg h, hs]

/-- Witness for C4: a zero-length datagram from peer0 with counter 5. -/
theorem zero_length_echoed_wit :
    (run_loop 5 [RecvOutcome.ok [] 0 [] peer0]).1.head? =
      some ⟨peer0, [], 0, []⟩ ∧
    run_loop 5 [RecvOutcome.ok [] 0 [] peer0] =
      (⟨peer0, [], 0, []⟩ :: (run_loop (ctrDec 5) []).1,
        (run_loop (ctrDec 5) []).2) :=
  ⟨(zero_length_echoed 5 0 [] peer0 []).1,
    (zero_length_echoed 5 0 [] peer0 []).2 (by decide)⟩

/-- Claim C7: when bind fails at startup, main reports "bind" to the
operator (perror) and terminates immediately with the non-zero exit
status 1: nothing is sent and the service loop is never entered,
whatever receive outcomes would have followed; there is no retry. -/
theorem bind_failure_fatal (sockopt4_ok sockopt6_ok : Bool) (count : Nat)
    (events : List RecvOutcome) :
    main_run false sockopt4_ok sockopt6_ok count events =
      ⟨some 1, [], ["bind"]⟩ := rfl

/-- Claim C8 (code bug): the source never tests the setsockopt return
values (lines 164-165), so a failed pktinfo option request is silently
ignored: the startup diagnostics are empty and the whole run is
identical to a run in which both options applied successfully. -/
theorem sockopt_failure_silent (sockopt4_ok sockopt6_ok : Bool) (count : Nat)
    (events : List RecvOutcome) :
    (main_run true sockopt4_ok sockopt6_ok count events).diags = [] ∧
    main_run true sockopt4_ok sockopt6_ok count events =
      main_run true true true count events :=
  ⟨rfl, rfl⟩

/-- Claim C5: for every positive configured count N (a positive 32-bit
int), if the first N receives succeed the loop issues exactly N
replies, stops through count exhaustion, and main exits with status 0,
regardless of further incoming datagrams in the trace. -/
theorem count_bounded_termination (N : Nat) (sockopt4_ok sockopt6_ok : Bool)
    (events : List RecvOutcome) (h1 : 0 < N) (h2 : N ≤ 2147483647)
    (hok : ∀ e ∈ events.take N, e ≠ RecvOutcome.err)
    (hlen : N ≤ events.length) :
    (run_loop N events).1.length = N ∧
    (run_loop N events).2 = LoopExit.countDone ∧
    (main_run true sockopt4_ok sockopt6_ok N events).exited = some 0 := by
  have ht : targetCnt N = N := by
    rw [targetCnt, if_neg (by omega)]
  have hw : N < INT_WRAP := by
    unfold INT_WRAP
    omega
  have h3 := run_loop_exhaust events N hw (by rw [ht]; exact hok)
    (by rw [ht]; exact hlen)
  rw [ht] at h3
  refine ⟨h3.1, h3.2, ?_⟩
  rw [main_run]
  simp [h3.2]

/-- Witness for C5 at N = 3 with three successful empty receives. -/
theorem count_bounded_termination_wit :
    (run_loop 3 [okev, okev, okev]).1.length = 3 ∧
    (run_loop 3 [okev, okev, okev]).2 = LoopExit.countDone ∧
    (main_run true true true 3 [okev, okev, okev]).exited = some 0 :=
  count_bounded_termination 3 true true [okev, okev, okev] (by decide)
    (by decide) (by decide) (by decide)

/-- Counterexample to claim C6: the counter of the default
configuration starts at the finite value 1000000 (line 130), and a
trace of 1000000 successful receives drives the default configuration
into the count-exhaustion stop: it does reach the Stopped state through
count exhaustion on its own, after finitely many replies. -/
theorem default_count_exhausts :
    (run_loop count_default (List.replicate count_default okev)).1.length =
      count_default ∧
    (run_loop count_default (List.replicate count_default okev)).2 =
      LoopExit.countDone := by
  have ht : targetCnt count_default = count_default := by
    rw [targetCnt, if_neg (by unfold count_default; omega)]
  have h := run_loop_exhaust (List.replicate count_default okev) count_default
    (by unfold count_default INT_WRAP; omega)
    (by
      intro e he
      rw [ht, List.take_replicate] at he
      rw [List.eq_of_mem_replicate he]
      decide)
    (by rw [ht, List.length_replicate])
  rw [ht] at h
  exact h

/-- Claim C6 (amended): with no count option configured, count starts
at the finite default 1000000, so when receives keep succeeding the
loop stops with success through count exhaustion after exactly 1000000
replies: the default is large but bounded, not unbounded. -/
theorem default_count_bounded (sockopt4_ok sockopt6_ok : Bool)
    (events : List RecvOutcome)
    (hok : ∀ e ∈ events.take count_default, e ≠ RecvOutcome.err)
    (hlen : count_default ≤ events.length) :
    (run_loop count_default events).1.length = count_default ∧
    (run_loop count_default events).2 = LoopExit.countDone ∧
    (main_run true sockopt4_ok sockopt6_ok count_default events).exited =
      some 0 := by
  have ht : targetCnt count_default = count_default := by
    rw [targetCnt, if_neg (by unfold count_default; omega)]
  have h3 := run_loop_exhaust events count_default
    (by unfold count_default INT_WRAP; omega)
    (by rw [ht]; exact hok) (by rw [ht]; exact hlen)
  rw [ht] at h3
  refine ⟨h3.1, h3.2, ?_⟩
  rw [main_run]
  simp [h3.2]

/-- Witness for the amended C6 on a trace of exactly 1000000 successful
receives. -/
theorem default_count_bounded_wit :
    (run_loop count_default (List.replicate count_default okev)).1.length =
      count_default ∧
    (run_loop count_default (List.replicate count_default okev)).2 =
      LoopExit.countDone ∧
    (main_run true true true count_default
      (List.replicate count_default okev)).exited = some 0 :=
  default_count_bounded true true (List.replicate count_default okev)
    (by
      intro e he
      rw [List.take_replicate] at he
      rw [List.eq_of_mem_replicate he]
      decide)
    (by simp)

/-- Claim C10: with count configured to 0 the loop does not stop after
zero replies: the decrement runs before the zero test, so a 32-bit
counter starting at 0 reaches 0 again only after a full 2^32-step
wraparound.  With fewer than 2^32 successful receives the loop echoes
every datagram and keeps running; it stops by count only at exactly
2^32 replies; and every other non-positive starting bit pattern
(2^31 <= c < 2^32, the negative ints) likewise outlasts any trace
shorter than its wraparound distance. -/
theorem count_zero_unbounded (events : List RecvOutcome)
    (hok : ∀ e ∈ events, e ≠ RecvOutcome.err) :
    (events.length < INT_WRAP →
      (run_loop 0 events).1.length = events.length ∧
      (run_loop 0 events).2 = LoopExit.running) ∧
    (INT_WRAP ≤ events.length →
      (run_loop 0 events).1.length = INT_WRAP ∧
      (run_loop 0 events).2 = LoopExit.countDone) ∧
    (∀ c : Nat, 2147483648 ≤ c → c < INT_WRAP → events.length < c →
      (run_loop c events).1.length = events.length ∧
      (run_loop c events).2 = LoopExit.running) := by
  have hw : (0 : Nat) < INT_WRAP := by unfold INT_WRAP; omega
  have ht0 : targetCnt 0 = INT_WRAP := rfl
  refine ⟨?_, ?_, ?_⟩
  · intro hlen
    exact run_loop_under events 0 hw hok (by rw [ht0]; exact hlen)
  · intro hlen
    have h := run_loop_exhaust events 0 hw
      (fun e he => hok e (List.take_subset _ _ he)) (by rw [ht0]; exact hlen)
    rw [ht0] at h
    exact h
  · intro c hc1 hc2 hlen
    exact run_loop_under events c hc2 hok
      (by rw [targetCnt, if_neg (by omega)]; exact hlen)

/-- Witness for C10: a single datagram with count 0 is echoed with the
loop still running; a trace of exactly 2^32 datagrams is fully echoed
and only then stops by count; and the INT_MIN bit pattern 2^31 also
outlasts a one-datagram trace. -/
theorem count_zero_unbounded_wit :
    ((run_loop 0 [okev]).1.length = [okev].length ∧
      (run_loop 0 [okev]).2 = LoopExit.running) ∧
    ((run_loop 0 (List.replicate INT_WRAP okev)).1.length = INT_WRAP ∧
      (run_loop 0 (List.replicate INT_WRAP okev)).2 = LoopExit.countDone) ∧
    ((run_loop 2147483648 [okev]).1.length = [okev].length ∧
      (run_loop 2147483648 [okev]).2 = LoopExit.running) :=
  ⟨(count_zero_unbounded [okev] (by decide)).1 (by decide),
    (count_zero_unbounded (List.replicate INT_WRAP okev)
      (by
        intro e he
        rw [List.eq_of_mem_replicate he]
        decide)).2.1 (by simp),
    (count_zero_unbounded [okev] (by decide)).2.2 2147483648 (by omega)
      (by unfold INT_WRAP; omega) (by decide)⟩

/-- Claim C2: the decoder's overwrite policy is last-wins per family:
when the block holds two or more destination-info records of one
family, the struct handed back for that family is the one copied from
the last such record in delivery order — for two IPv4 records with
different addresses, the second record's bytes, hence its address. -/
theorem pktinfo_last_wins (m : Msghdr) (pk pk6 : List Nat)
    (h0 : 0 < m.msg_controllen) :
    (∀ c4, 2 ≤ (m.msg_control.filter isV4Rec).length →
      (m.msg_control.filter isV4Rec).getLast? = some c4 →
      (pktinfo_get m pk pk6).pktinfo = c4.cmsg_data.take sizeof_in_pktinfo ∧
      in_pktinfo_spec_dst (pktinfo_get m pk pk6).pktinfo =
        in_pktinfo_spec_dst (c4.cmsg_data.take sizeof_in_pktinfo)) ∧
    (∀ c6, 2 ≤ (m.msg_control.filter isV6Rec).length →
      (m.msg_control.filter isV6Rec).getLast? = some c6 →
      (pktinfo_get m pk pk6).pktinfo6 = c6.cmsg_data.take sizeof_in6_pktinfo) := by
  have hget : pktinfo_get m pk pk6 =
      pktinfo_scan ⟨-1, pk, pk6, []⟩ m.msg_control := by
    rw [pktinfo_get, if_pos h0]
  constructor
  · intro c4 _ hlast
    have h1 : (pktinfo_get m pk pk6).pktinfo =
        c4.cmsg_data.take sizeof_in_pktinfo := by
      rw [hget, pktinfo_scan_pktinfo, foldl_const_last, hlast]
      rfl
    exact ⟨h1, by rw [h1]⟩
  · intro c6 _ hlast
    rw [hget, pktinfo_scan_pktinfo6, foldl_const_last, hlast]
    rfl

/-- Two IPv4 destination-info records with different addresses
(10.0.0.5 via interface 1 and 10.0.0.9 via interface 2). -/
def v4recA : Cmsghdr :=
  ⟨28, IPPROTO_IP, IP_PKTINFO, [1, 0, 0, 0, 10, 0, 0, 5, 10, 0, 0, 5]⟩

/-- Second IPv4 destination-info record, address 10.0.0.9. -/
def v4recB : Cmsghdr :=
  ⟨28, IPPROTO_IP, IP_PKTINFO, [2, 0, 0, 0, 10, 0, 0, 9, 10, 0, 0, 9]⟩

/-- An ancillary block carrying the two IPv4 records in order. -/
def hdr2v4 : Msghdr := ⟨peer0, 56, [v4recA, v4recB]⟩

/-- Witness for C2: on the two-record block the decoder hands back the
second record's struct and therefore its address. -/
theorem pktinfo_last_wins_wit :
    (pktinfo_get hdr2v4 [] []).pktinfo =
      v4recB.cmsg_data.take sizeof_in_pktinfo ∧
    in_pktinfo_spec_dst (pktinfo_get hdr2v4 [] []).pktinfo =
      in_pktinfo_spec_dst (v4recB.cmsg_data.take sizeof_in_pktinfo) :=
  (pktinfo_last_wins hdr2v4 [] [] (by decide)).1 v4recB (by decide) (by decide)

/-- Claim C3: the decoder is total and tolerant: it always yields
exactly one result — res is -1 (Absent), AF_INET or AF_INET6, nothing
else, and it never fails — and when a nonempty block holds only
unrecognized records it yields Absent, having skipped every record with
its (len, level, type) diagnostic while scanning to the end. -/
theorem pktinfo_total_tolerant (m : Msghdr) (pk pk6 : List Nat) :
    ((pktinfo_get m pk pk6).res = -1 ∨ (pktinfo_get m pk pk6).res = AF_INET ∨
      (pktinfo_get m pk pk6).res = AF_INET6) ∧
    (0 < m.msg_controllen →
      (∀ c ∈ m.msg_control, isRecognized c = false) →
      (pktinfo_get m pk pk6).res = -1 ∧
      (pktinfo_get m pk pk6).diagnostics =
        m.msg_control.map (fun c => (c.cmsg_len, c.cmsg_level, c.cmsg_type))) := by
  constructor
  · by_cases h0 : 0 < m.msg_controllen
    · rw [pktinfo_get, if_pos h0, pktinfo_scan_res, foldl_const_last]
      rcases h : (m.msg_control.filter isRecognized).getLast? with _ | c
      · left; rfl
      · by_cases h4 : isV4Rec c
        · right; left; simp [h4]
        · right; right; simp [h4]
    · rw [pktinfo_get, if_neg h0]
      left; rfl
  · intro h0 hall
    have hfil : m.msg_control.filter isRecognized = [] := by
      rw [List.filter_eq_nil_iff]
      intro a ha
      simp [hall a ha]
    have hfil2 : m.msg_control.filter (fun c => !(isRecognized c)) =
        m.msg_control := by
      rw [List.filter_eq_self]
      intro a ha
      simp [hall a ha]
    constructor
    · rw [pktinfo_get, if_pos h0, pktinfo_scan_res, hfil]
      rfl
    · rw [pktinfo_get, if_pos h0, pktinfo_scan_diags, hfil2]
      rfl

/-- An ancillary record recognized by neither decoder branch
(level IPPROTO_IPV6 with a non-pktinfo type). -/
def unkRec : Cmsghdr := ⟨16, IPPROTO_IPV6, 2, [7, 7]⟩

/-- A nonempty ancillary block holding only the unrecognized record. -/
def hdrUnk : Msghdr := ⟨peer0, 16, [unkRec]⟩

/-- Witness for C3: on the unrecognized-only block the decoder returns
Absent with exactly that record's diagnostic triple. -/
theorem pktinfo_total_tolerant_wit :
    ((pktinfo_get hdrUnk [] []).res = -1 ∨
      (pktinfo_get hdrUnk [] []).res = AF_INET ∨
      (pktinfo_get hdrUnk [] []).res = AF_INET6) ∧
    ((pktinfo_get hdrUnk [] []).res = -1 ∧
      (pktinfo_get hdrUnk [] []).diagnostics =
        hdrUnk.msg_control.map
          (fun c => (c.cmsg_len, c.cmsg_level, c.cmsg_type))) :=
  ⟨(pktinfo_total_tolerant hdrUnk [] []).1,
    (pktinfo_total_tolerant hdrUnk [] []).2 (by decide) (by decide)⟩

/-- A lone IPv4 destination-info record (address 192.168.1.7,
interface 3) in an ancillary block. -/
def v4recC : Cmsghdr :=
  ⟨28, IPPROTO_IP, IP_PKTINFO, [3, 0, 0, 0, 192, 168, 1, 7, 192, 168, 1, 7]⟩

/-- An ancillary block holding only the IPv4 record, as a dual-stack
AF_INET6 socket can receive for an IPv4-mapped datagram. -/
def hdrV4only : Msghdr := ⟨peer0, 28, [v4recC]⟩

/-- Counterexample to claim C9: under the default AF_INET6 bound family
a lone IPv4 destination-info record decodes to the present family
AF_INET, which differs from the bound family, with no diagnostic of any
kind: no unknown-record triple from pktinfo_get and no no-data line
from print_info.  The other-family record is silently accepted. -/
theorem decoded_family_differs_from_bound :
    (pktinfo_get hdrV4only [] []).res = AF_INET ∧
    AF_INET ≠ addr_family_default ∧
    (pktinfo_get hdrV4only [] []).diagnostics = [] ∧
    print_info_no_data hdrV4only [] [] = false := by decide

/-- Claim C9 (amended): the decoded family is simply the family of the
last recognized destination-info record in the block — pktinfo_get
never consults the socket's bound family, so the two need not agree —
and the only diagnostics are the (len, level, type) triples of
unrecognized records: a recognized record of the other family is
decoded normally, not surfaced as a mismatch. -/
theorem decoded_family_last_recognized (m : Msghdr) (pk pk6 : List Nat)
    (c : Cmsghdr) (h0 : 0 < m.msg_controllen)
    (hlast : (m.msg_control.filter isRecognized).getLast? = some c) :
    (pktinfo_get m pk pk6).res = (if isV4Rec c then AF_INET else AF_INET6) ∧
    (pktinfo_get m pk pk6).diagnostics =
      (m.msg_control.filter (fun x => !(isRecognized x))).map
        (fun x => (x.cmsg_len, x.cmsg_level, x.cmsg_type)) := by
  constructor
  · rw [pktinfo_get, if_pos h0, pktinfo_scan_res, foldl_const_last, hlast]
    rfl
  · rw [pktinfo_get, if_pos h0, pktinfo_scan_diags]
    rfl

/-- Witness for the amended C9 on the lone-IPv4-record block. -/
theorem decoded_family_last_recognized_wit :
    (pktinfo_get hdrV4only [] []).res =
      (if isV4Rec v4recC then AF_INET else AF_INET6) ∧
    (pktinfo_get hdrV4only [] []).diagnostics =
      (hdrV4only.msg_control.filter (fun x => !(isRecognized x))).map
        (fun x => (x.cmsg_len, x.cmsg_level, x.cmsg_type)) :=
  decoded_family_last_recognized hdrV4only [] [] v4recC (by decide) (by decide)
